import Mathlib

/-!
Verification of the crime-data ingestion and normalization pipeline
(`Q4.py`): column resolution, temporal parsing, geo extraction,
aggregation and the pipeline driver, shallowly embedded as executable
Lean definitions.  External library behaviour (pandas/MySQL) is modelled
only at the interface points the script uses, as documented on each
definition.
-/

/- ### Basic list / option utilities -/

/-- Number of `some` entries of a column of parse results
(`Series.notna().sum()` on a freshly parsed column). -/
def countSome {α : Type} (l : List (Option α)) : Nat :=
  (l.filterMap id).length

/-- A raw date-ish value as it can sit in a database cell.
`iso y m d` stands for an ISO-formatted date string `y-m-d`;
`slashed a b y` stands for a slashed string `a/b/y` whose day/month
order is determined by the parsing policy. -/
inductive RawDate where
  | iso (y m d : Nat)
  | slashed (a b y : Nat)
deriving DecidableEq, Repr

/-- A calendar date `y-m-d` (the value of a parsed timestamp; the
script never uses a time-of-day component of `DATE_OCC`). -/
structure SDate where
  y : Nat
  m : Nat
  d : Nat
deriving DecidableEq, Repr

/-- month/day plausibility used by the modelled date parser. -/
def okMD (m d : Nat) : Bool :=
  decide (1 ≤ m ∧ m ≤ 12 ∧ 1 ≤ d ∧ d ≤ 31)

/-- Modelled from the spec: the primary date-parsing policy of the
external `pd.to_datetime(..., errors="coerce")` call — a
"locale-agnostic flexible parse accepting ISO and common slashed
formats", month before day for slashed values.  Unparseable values
become `none` (NaT). -/
def parsePrimary : RawDate → Option SDate
  | .iso y m d => if okMD m d then some ⟨y, m, d⟩ else none
  | .slashed a b y => if okMD a b then some ⟨y, a, b⟩ else none

/-- Modelled from the spec: the fallback policy
`pd.to_datetime(..., errors="coerce", dayfirst=True)` — the
"day-before-month interpretation" of slashed values. -/
def parseDayfirst : RawDate → Option SDate
  | .iso y m d => if okMD m d then some ⟨y, m, d⟩ else none
  | .slashed a b y => if okMD b a then some ⟨y, b, a⟩ else none

/- ### Cells and their string representation -/

/-- An exact decimal number `num / 10 ^ scale`, the value denoted by a
matched group of the coordinate pattern.  Python's `float(...)` rounds
this decimal to the nearest binary double; the extraction logic itself
is exact. -/
structure Dec where
  num : Int
  scale : Nat
deriving DecidableEq, Repr

/-- The rational value of an exact decimal. -/
def Dec.toRat (d : Dec) : ℚ := (d.num : ℚ) / (10 : ℚ) ^ d.scale

/-- One cell of a data frame.  `null` is NaN/NaT/None; `str` is a text
cell (text that is not date-like; date-like text is `rdate`); `pdate`
is a parsed timestamp as stored back into `DATE_OCC`/`Date_Rptd`;
`ptime` a parsed time-of-day; `num` a numeric cell. -/
inductive Cell where
  | null
  | str (s : String)
  | rdate (r : RawDate)
  | pdate (d : SDate)
  | ptime (h : Nat) (mi : Nat)
  | num (q : Dec)
deriving DecidableEq, Repr

/-- Python's `str(...)` on a cell, as far as the script exercises it
(only `str` and `null` cells ever reach a `str(...)` call on the
claims' inputs).  `null` renders as `"nan"` exactly as
`str(numpy.nan)` does — this is what `astype(str)` produces for a
missing cell.  The other renderings are simple canonical forms. -/
def natStr (n : Nat) : String := toString n

def rawDateRepr : RawDate → String
  | .iso y m d => natStr y ++ "-" ++ natStr m ++ "-" ++ natStr d
  | .slashed a b y => natStr a ++ "/" ++ natStr b ++ "/" ++ natStr y

def cellRepr : Cell → String
  | .null => "nan"
  | .str s => s
  | .rdate r => rawDateRepr r
  | .pdate d => natStr d.y ++ "-" ++ natStr d.m ++ "-" ++ natStr d.d
  | .ptime h mi => natStr h ++ ":" ++ natStr mi
  | .num q => if q.scale = 0 then toString q.num else toString q.num ++ "e-" ++ natStr q.scale

/-- `pd.to_datetime(cell, errors="coerce")` at the cell level:
already-parsed datetimes pass through, raw date-like text goes through
the primary policy, everything else (NaN, plain text, times, numbers)
coerces to NaT.  (pandas would interpret a bare number as an epoch
offset; no numeric cell is ever fed to a date parse in this script.) -/
def parseCellPrimary : Cell → Option SDate
  | .rdate r => parsePrimary r
  | .pdate d => some d
  | _ => none

/-- Same with `dayfirst=True`. -/
def parseCellDayfirst : Cell → Option SDate
  | .rdate r => parseDayfirst r
  | .pdate d => some d
  | _ => none

/-- `some d ↦ pdate d`, `none ↦ null` (NaT): how a parsed series is
stored back into the frame. -/
def optDateCell : Option SDate → Cell
  | some d => .pdate d
  | none => .null

/-- `Series.notna()` for one cell. -/
def cellNotNull : Cell → Bool
  | .null => false
  | _ => true

/-- `Series.notna().sum()`. -/
def notnaCount (l : List Cell) : Nat :=
  l.countP cellNotNull

/- ### Character/string helpers (ASCII, as the script's data is) -/

def isSpaceCh (c : Char) : Bool :=
  c = ' ' || c = '\t' || c = '\n' || c = '\r' || c = '\x0b' || c = '\x0c'

/-- Python `str.strip()`. -/
def trimChars (l : List Char) : List Char :=
  ((l.dropWhile isSpaceCh).reverse.dropWhile isSpaceCh).reverse

def trimStr (s : String) : String := ⟨trimChars s.data⟩

/-- Python `str.lower()` (ASCII range, which covers every column name
and candidate in the script). -/
def lowerChar (c : Char) : Char :=
  if 'A' ≤ c ∧ c ≤ 'Z' then Char.ofNat (c.toNat + 32) else c

def lowerStr (s : String) : String := ⟨s.data.map lowerChar⟩

/- ### Temporal parser: `fix_time` (Q4.py lines 88-103) -/

def digitVal (c : Char) : Nat := c.toNat - 48

/-- `pd.to_datetime(s, format="%H%M", errors="coerce").time()` on the
zero-filled digit string: exactly four digits interpreted as HHMM,
out-of-range hours/minutes fail (NaT, whose `.time()` raises and is
swallowed by the `except` into `None`), longer strings leave
unconverted data and fail likewise. -/
def hhmm? : List Char → Option (Nat × Nat)
  | [a, b, c, d] =>
    let hh := 10 * digitVal a + digitVal b
    let mm := 10 * digitVal c + digitVal d
    if hh ≤ 23 ∧ mm ≤ 59 then some (hh, mm) else none
  | _ => none

/-- `fix_time` on a string value: strip, remove non-digits, `zfill(4)`,
parse as HHMM.  Total: the source's `try/except` guarantees `None`
instead of an exception. -/
def fix_time (s : String) : Option (Nat × Nat) :=
  let ds := (trimChars s.data).filter Char.isDigit
  if ds.length = 0 then none
  else hhmm? (List.replicate (4 - ds.length) '0' ++ ds)

/-- `fix_time` on a raw cell: `pd.isna(x)` short-circuits to `None`,
otherwise `str(x)` is parsed. -/
def fixTimeCell : Cell → Option (Nat × Nat)
  | .null => none
  | c => fix_time (cellRepr c)

def optTimeCell : Option (Nat × Nat) → Cell
  | some p => .ptime p.1 p.2
  | none => .null

/- ### Geo extractor: `extract_coord` (Q4.py lines 112-123) -/

/-- Greedy run of decimal digits (`\d*` / the digit part of `\d{1,3}`
and `\d+` — see `matchNum` for why greediness is exact here). -/
def takeDigits : List Char → List Char × List Char
  | [] => ([], [])
  | c :: t =>
    if c.isDigit then
      let p := takeDigits t
      (c :: p.1, p.2)
    else ([], c :: t)

def stripSign : List Char → List Char
  | '-' :: t => t
  | '+' :: t => t
  | l => l

def signOf : List Char → Bool
  | '-' :: _ => true
  | _ => false

/-- Exact decimal value of a sign/integer-digits/fraction-digits
triple. -/
def decOfParts (sgn : Bool) (ds fs : List Char) : Dec :=
  let iv : Nat := ds.foldl (fun a c => 10 * a + digitVal c) 0
  let fv : Nat := fs.foldl (fun a c => 10 * a + digitVal c) 0
  let n : Int := Int.ofNat (iv * 10 ^ fs.length + fv)
  ⟨if sgn then -n else n, fs.length⟩

/-- Match of `[-+]?\d{1,3}\.\d+` anchored at the head of `l`, returning
the value and the unconsumed rest.  Regex backtracking note: the digits
before the dot are a maximal run; `\d{1,3}` (greedy, with backtracking)
succeeds exactly when that whole run has length 1..3 and is followed by
a dot, because any shorter prefix is followed by a digit, not `.`. -/
def matchNum (l : List Char) : Option (Dec × List Char) :=
  let l1 := stripSign l
  let p := takeDigits l1
  if 1 ≤ p.1.length ∧ p.1.length ≤ 3 then
    match p.2 with
    | '.' :: l3 =>
      let q := takeDigits l3
      if 1 ≤ q.1.length then some (decOfParts (signOf l) p.1 q.1, q.2) else none
    | _ => none
  else none

/-- Greedy run of the separator class `[, ]+` (count, rest). -/
def takeCommaSpace : List Char → Nat × List Char
  | [] => (0, [])
  | c :: t =>
    if c = ',' ∨ c = ' ' then
      let p := takeCommaSpace t
      (p.1 + 1, p.2)
    else (0, c :: t)

/-- Full pattern `([-+]?\d{1,3}\.\d+)[, ]+\s*([-+]?\d{1,3}\.\d+)`
anchored at the head of `l`.  The separator classes are disjoint from
the characters a number can start with, so greedy matching is exact. -/
def matchPairAt (l : List Char) : Option (Dec × Dec) :=
  match matchNum l with
  | none => none
  | some (q1, r1) =>
    let sep := takeCommaSpace r1
    if 1 ≤ sep.1 then
      match matchNum (sep.2.dropWhile isSpaceCh) with
      | some (q2, _) => some (q1, q2)
      | none => none
    else none

/-- `re.search`: the leftmost position at which the pattern matches. -/
def searchPair : List Char → Option (Dec × Dec)
  | [] => none
  | c :: t =>
    match matchPairAt (c :: t) with
    | some p => some p
    | none => searchPair t

/-- `extract_coord` on the text of a cell.  The `float(...)` calls on
the matched groups cannot fail (the groups are sign/digit/dot strings),
so the source's inner `except` is unreachable and not modelled. -/
def extractCoordStr (s : String) : Option (Dec × Dec) :=
  searchPair s.data

/-- `extract_coord` on a raw cell: `pd.isna` short-circuits, otherwise
`str(text)` is scanned.  An absent pair is `(nan, nan)` in the source,
i.e. `none` here. -/
def extractCoordCell : Cell → Option (Dec × Dec)
  | .null => none
  | c => extractCoordStr (cellRepr c)

/- ### Column resolver: `find_col` (Q4.py lines 134-146) -/

/-- One insertion into a Python dict: an existing key keeps its
position and gets the new value, a new key is appended. -/
def dictInsert (d : List (String × String)) (k v : String) : List (String × String) :=
  if d.any (fun p => p.1 == k) then
    d.map (fun p => if p.1 == k then (k, v) else p)
  else d ++ [(k, v)]

/-- `cols_lower = {c.lower(): c for c in df.columns}` — insertion
order preserved, later duplicates overwrite the stored original name. -/
def colsLower (cols : List String) : List (String × String) :=
  cols.foldl (fun d c => dictInsert d (lowerStr c) c) []

def dictGet (d : List (String × String)) (k : String) : Option String :=
  (d.find? (fun p => p.1 == k)).map (fun p => p.2)

/-- Python's substring test `needle in hay`. -/
def hasSubstr (needle : List Char) : List Char → Bool
  | [] => needle.isEmpty
  | c :: t => needle.isPrefixOf (c :: t) || hasSubstr needle t

/-- `find_col(possible_names)` over the column names `cols`: first an
exact lowercased-key lookup, candidate by candidate; failing that, a
substring scan that iterates the *dict entries* (i.e. the columns, in
table order) in the outer loop and the candidates in the inner loop. -/
def find_col (cols : List String) (possible : List String) : Option String :=
  let d := colsLower cols
  match possible.find? (fun name => (dictGet d (lowerStr name)).isSome) with
  | some name => dictGet d (lowerStr name)
  | none =>
    (d.find? (fun p => possible.any (fun name => hasSubstr (lowerStr name).data p.1.data))).map
      (fun p => p.2)

def areaCands : List String :=
  ["AREA_NAME", "area_name", "area", "neighborhood", "beat", "location"]

def crimeCands : List String :=
  ["Crm_Cd_Desc", "crm_cd_desc", "crm", "crime", "offense", "description"]

def dateCands : List String :=
  ["date_rptd", "date", "date_reported", "date_occ"]

/- ### Aggregator (Q4.py lines 196-198, 208-209) -/

/-- Insertion step of a stable insertion sort: `x` goes after every
already-placed element `y` with `le y x`. -/
def insertLe {α : Type} (le : α → α → Bool) (x : α) : List α → List α
  | [] => [x]
  | y :: t => if le x y then x :: y :: t else y :: insertLe le x t

/-- Stable insertion sort with respect to the boolean relation `le`
(earlier elements of `l` end up before later, `le`-equivalent ones). -/
def sortLe {α : Type} (le : α → α → Bool) (l : List α) : List α :=
  l.foldr (insertLe le) []

/-- Code-point lexicographic order on strings (Python's `<` on `str`
for the ASCII data at hand), as a boolean. -/
def charListLe : List Char → List Char → Bool
  | [], _ => true
  | _ :: _, [] => false
  | a :: as, b :: bs =>
    if a.toNat < b.toNat then true
    else if b.toNat < a.toNat then false
    else charListLe as bs

def strLeB (a b : String) : Bool := charListLe a.data b.data

/-- year-month bucket order. -/
def monthLeB (a b : Nat × Nat) : Bool :=
  decide (a.1 < b.1 ∨ (a.1 = b.1 ∧ a.2 ≤ b.2))

def monthLtB (a b : Nat × Nat) : Bool :=
  decide (a.1 < b.1 ∨ (a.1 = b.1 ∧ a.2 < b.2))

/-- calendar-date bucket order. -/
def dayLeB (a b : SDate) : Bool :=
  decide (a.y < b.y ∨ (a.y = b.y ∧ (a.m < b.m ∨ (a.m = b.m ∧ a.d ≤ b.d))))

def dayLtB (a b : SDate) : Bool :=
  decide (a.y < b.y ∨ (a.y = b.y ∧ (a.m < b.m ∨ (a.m = b.m ∧ a.d < b.d))))

/-- week-number bucket order. -/
def natLeB (a b : Nat) : Bool := decide (a ≤ b)

def natLtB (a b : Nat) : Bool := decide (a < b)

/-- `df.groupby(key).size().reset_index()`: pandas groups with
`sort=True`, so the result is the distinct keys in ascending `le`
order, each with its multiplicity. -/
def groupbySize {K : Type} [DecidableEq K] (le : K → K → Bool) (keys : List K) :
    List (K × Nat) :=
  (sortLe le keys.dedup).map (fun k => (k, keys.count k))

/-- Descending-count comparison used by
`sort_values("Incidents", ascending=False)`. -/
def cntGe {K : Type} (p q : K × Nat) : Bool := decide (q.2 ≤ p.2)

/-- `groupby(col).size().reset_index(name="Incidents")
.sort_values("Incidents", ascending=False)` for a categorical string
column.  The count sort (pandas default `kind='quicksort'`, numpy's
introsort) is modelled by a concrete insertion sort so the table stays
executable; introsort is unstable above its small-array threshold, so
the model's tie order between equal counts is an artifact there and no
claim theorem relies on it — only the sort-algorithm-independent
properties (row multiset, descending count order) are stated. -/
def topTable (keys : List String) : List (String × Nat) :=
  sortLe cntGe (groupbySize strLeB keys)

/- ### Frames and the pipeline driver (Q4.py top level) -/

/-- A pandas DataFrame, as the script uses one: named columns of cells
plus the row count (`len(df)`). -/
structure Frame where
  cols : List (String × List Cell)
  nrows : Nat
deriving DecidableEq, Repr

def hasCol (f : Frame) (name : String) : Bool :=
  f.cols.any (fun p => p.1 == name)

def getCol? (f : Frame) (name : String) : Option (List Cell) :=
  (f.cols.find? (fun p => p.1 == name)).map (fun p => p.2)

/-- `df.get(name)` followed by `pd.to_datetime(..., errors="coerce")`
or similar: an absent column behaves as an all-NaN column of the
frame's length (a scalar NaN/NaT broadcast on assignment). -/
def getColD (f : Frame) (name : String) : List Cell :=
  (getCol? f name).getD (List.replicate f.nrows Cell.null)

/-- `df[name] = col`: replace in place, or append a new column. -/
def setCol (f : Frame) (name : String) (col : List Cell) : Frame :=
  if f.cols.any (fun p => p.1 == name) then
    ⟨f.cols.map (fun p => if p.1 == name then (name, col) else p), f.nrows⟩
  else ⟨f.cols ++ [(name, col)], f.nrows⟩

/-- `df[dst] = pd.to_datetime(df.get(src), errors="coerce")` with parse
policy `g`. -/
def parseColInto (f : Frame) (dst src : String) (g : Cell → Option SDate) : Frame :=
  setCol f dst (((getColD f src).map g).map optDateCell)

/-- Lines 58-82: strip column names, parse `Date_Rptd` and `DATE_OCC`
with the primary policy (overwriting the raw columns), then the
adaptive day-first retry.  `int(len(df) * 0.2)` equals `len df / 5` in
ℕ: for `5 ∣ n` the double `n * 0.2` rounds to exactly `n / 5`, and
otherwise its tiny excess over `n / 5` cannot reach the next integer.
Note the retry re-reads `df["DATE_OCC"]`, which line 69 has already
overwritten with the coerced datetimes. -/
def stageDates (t : Frame) : Frame :=
  let f0 : Frame := ⟨t.cols.map (fun p => (trimStr p.1, p.2)), t.nrows⟩
  let f1 := parseColInto f0 "Date_Rptd" "Date_Rptd" parseCellPrimary
  let f2 := parseColInto f1 "DATE_OCC" "DATE_OCC" parseCellPrimary
  if notnaCount (getColD f2 "DATE_OCC") < max 1 (f2.nrows / 5) then
    if countSome ((getColD f2 "DATE_OCC").map parseCellDayfirst) >
        notnaCount (getColD f2 "DATE_OCC") then
      parseColInto f2 "DATE_OCC" "DATE_OCC" parseCellDayfirst
    else f2
  else f2

/-- Lines 104-127: `TIME_OCC` parsing (the caller must have checked the
column exists — `df.get("TIME_OCC").apply` raises otherwise) and
`LOCATION` coordinate extraction (`df.get` with an all-NaN default). -/
def stageTimeGeo (f : Frame) : Frame :=
  let f1 := setCol f "TIME_OCC_parsed" ((getColD f "TIME_OCC").map (fun c => optTimeCell (fixTimeCell c)))
  let coords := (getColD f1 "LOCATION").map extractCoordCell
  let f2 := setCol f1 "Lat" (coords.map (fun o => match o with
    | some p => Cell.num p.1
    | none => Cell.null))
  setCol f2 "Lon" (coords.map (fun o => match o with
    | some p => Cell.num p.2
    | none => Cell.null))

/-- `astype(str)` then `.fillna("Unknown")` on one cell: `astype(str)`
stringifies a missing cell to `"nan"`, after which `fillna` finds no
missing values left. -/
def astype_str (c : Cell) : Cell := .str (cellRepr c)

def fillnaCell (v : String) (c : Cell) : Cell :=
  match c with
  | .null => .str v
  | c => c

def aliasVal (c : Cell) : Cell := fillnaCell "Unknown" (astype_str c)

/-- One alias-column assignment: the `if area_col: ... else: ...`
block (Q4.py lines 148-160), with `r` the resolver's verdict. -/
def aliasCol (f : Frame) (name : String) (r : Option String) : Frame :=
  match r with
  | some c => setCol f name ((getColD f c).map aliasVal)
  | none => setCol f name (List.replicate f.nrows (Cell.str "Unknown"))

/-- Lines 134-170: build `cols_lower` once (before the alias columns
exist), resolve and write the two alias columns, then the `DATE_OCC`
rebinding when the parsed column is absent or all-NaT.  All three
`find_col` calls use the column list captured at line 134. -/
def stageAlias (f : Frame) : Frame :=
  let colsL := f.cols.map (fun p => p.1)
  let f1 := aliasCol f "AREA_NAME_alias" (find_col colsL areaCands)
  let f2 := aliasCol f1 "Crm_Cd_Desc_alias" (find_col colsL crimeCands)
  if !(hasCol f2 "DATE_OCC") || (getColD f2 "DATE_OCC").all (fun c => c == Cell.null) then
    match find_col colsL dateCands with
    | some fb => setCol f2 "DATE_OCC" (((getColD f2 fb).map parseCellPrimary).map optDateCell)
    | none => f2
  else f2

/-- Boolean row mask application (pandas boolean indexing). -/
def maskFilter : List Bool → List Cell → List Cell
  | true :: ms, c :: cs => c :: maskFilter ms cs
  | false :: ms, _ :: cs => maskFilter ms cs
  | _, _ => []

def countTrue (l : List Bool) : Nat := l.countP (fun b => b)

/-- `df[df["DATE_OCC"].notna()]`. -/
def frameFilter (f : Frame) (mask : List Bool) : Frame :=
  ⟨f.cols.map (fun p => (p.1, maskFilter mask p.2)), countTrue mask⟩

/-- Lines 183-184: `df_time`. -/
def dfTimeOf (f : Frame) : Frame :=
  frameFilter f ((getColD f "DATE_OCC").map cellNotNull)

def cellDate? : Cell → Option SDate
  | .pdate d => some d
  | _ => none

/-- The parsed occurrence timestamps of the surviving rows. -/
def datesOf (f : Frame) : List SDate :=
  (getColD (dfTimeOf f) "DATE_OCC").filterMap cellDate?

/-- Lines 189-203: monthly aggregate (`to_period("M")` buckets by
year-month); an empty `df_time` yields the empty placeholder frame. -/
def monthlyOf (f : Frame) : List ((Nat × Nat) × Nat) :=
  if 0 < (dfTimeOf f).nrows then
    groupbySize monthLeB ((datesOf f).map (fun d => (d.y, d.m)))
  else []

/-- Line 197's weekly aggregate (never exported, charted or printed, so
not part of `Output`).  The week number of a parsed date comes from the
external `dt.isocalendar().week`; it is abstracted as the parameter
`wk`, since no claim depends on the numbering itself. -/
def weeklyOf (wk : SDate → Nat) (f : Frame) : List (Nat × Nat) :=
  if 0 < (dfTimeOf f).nrows then groupbySize natLeB ((datesOf f).map wk) else []

/-- Daily aggregate (`dt.date` buckets by calendar date). -/
def dailyOf (f : Frame) : List (SDate × Nat) :=
  if 0 < (dfTimeOf f).nrows then groupbySize dayLeB (datesOf f) else []

/-- Lines 208-209: categorical aggregates over `df_time`, computed
unconditionally (on an empty `df_time` they are empty). -/
def topAreasOf (f : Frame) : List (String × Nat) :=
  topTable ((getColD (dfTimeOf f) "AREA_NAME_alias").map cellRepr)

def topCrimesOf (f : Frame) : List (String × Nat) :=
  topTable ((getColD (dfTimeOf f) "Crm_Cd_Desc_alias").map cellRepr)

/-- The observable result of one pipeline run: the guard diagnostic,
which charts were saved, the in-memory aggregate tables, and the data
rows written to each of the four CSV files (which are created
unconditionally at lines 256-259). -/
structure Output where
  validDateCount : Nat
  diagNoValidDates : Bool
  chartTopAreas : Bool
  chartMonthly : Bool
  aggTopAreas : List (String × Nat)
  aggTopCrimes : List (String × Nat)
  aggMonthly : List ((Nat × Nat) × Nat)
  aggDaily : List (SDate × Nat)
  csvTopAreas : List (String × Nat)
  csvTopCrimes : List (String × Nat)
  csvMonthly : List ((Nat × Nat) × Nat)
  csvDaily : List (SDate × Nat)
  csvFilesWritten : List String
deriving DecidableEq, Repr

def csvFileNames : List String :=
  ["q4_top_areas.csv", "q4_top_crimes.csv", "q4_monthly_crime.csv", "q4_daily_crime.csv"]

/-- Lines 176-259: the guard, the aggregates, the two conditional
charts, and the four unconditional CSV exports (categorical ones
truncated with `.head(100)`). -/
def finalize (f : Frame) : Output :=
  { validDateCount := notnaCount (getColD f "DATE_OCC")
    diagNoValidDates := notnaCount (getColD f "DATE_OCC") == 0
    chartTopAreas := !(topAreasOf f).isEmpty
    chartMonthly := !(monthlyOf f).isEmpty
    aggTopAreas := topAreasOf f
    aggTopCrimes := topCrimesOf f
    aggMonthly := monthlyOf f
    aggDaily := dailyOf f
    csvTopAreas := (topAreasOf f).take 100
    csvTopCrimes := (topCrimesOf f).take 100
    csvMonthly := monthlyOf f
    csvDaily := dailyOf f
    csvFilesWritten := csvFileNames }

/-- The whole post-load run.  The only uncaught exception after the
load is line 104's `df.get("TIME_OCC").apply(...)` when the table has
no `TIME_OCC` column (`.apply` on `None`); every other per-value
failure is coerced or defaulted. -/
def runPipeline (t : Frame) : Except String Output :=
  let f1 := stageDates t
  match hasCol f1 "TIME_OCC" with
  | true => Except.ok (finalize (stageAlias (stageTimeGeo f1)))
  | false => Except.error "AttributeError: NoneType object has no attribute apply"

def runOut (t : Frame) : Option Output := (runPipeline t).toOption

/-- The valid-timestamp count observed at the line-177 guard (0 when
the run aborted before reaching it). -/
def vdcOf (t : Frame) : Nat := ((runOut t).map Output.validDateCount).getD 0

/- ### Concrete tables used by the claim theorems -/

def junkCell : Cell := Cell.str "not-a-date"

/-- A table whose every `DATE_OCC` (and `Date_Rptd`) value fails to
parse, with `TIME_OCC` present. -/
def c1table : Frame :=
  ⟨[("DATE_OCC", [junkCell, junkCell]),
    ("TIME_OCC", [Cell.str "1200", Cell.str "900"]),
    ("AREA_NAME", [Cell.str "Pacific", Cell.str "Central"])], 2⟩

/-- The raw `DATE_OCC` column of `c3table`: one month-first-parseable
slashed date and nine day-first-only ones. -/
def c3rawDates : List Cell :=
  Cell.rdate (.slashed 1 2 2021) :: List.replicate 9 (Cell.rdate (.slashed 25 12 2021))

def c3table : Frame := ⟨[("DATE_OCC", c3rawDates)], 10⟩

/-- A zero-row result set that still carries the table's schema. -/
def c4table : Frame :=
  ⟨[("DATE_OCC", []), ("Date_Rptd", []), ("TIME_OCC", []),
    ("AREA_NAME", []), ("Crm_Cd_Desc", []), ("LOCATION", [])], 0⟩

/-- A one-column frame whose resolved area column holds a missing cell. -/
def c8frame : Frame := ⟨[("AREA_NAME", [Cell.null, Cell.str "Pacific"])], 2⟩

/-- The fully parseable `date` column of `c9table`. -/
def c9dateCol : List Cell :=
  [Cell.rdate (.iso 2021 5 1), Cell.rdate (.iso 2021 6 2)]

/-- `DATE_OCC` and `Date_Rptd` unparseable, but a plain `date` column
(a later resolver candidate) parses completely. -/
def c9table : Frame :=
  ⟨[("DATE_OCC", [junkCell, junkCell]),
    ("Date_Rptd", [junkCell, junkCell]),
    ("date", c9dateCol),
    ("TIME_OCC", [Cell.str "100", Cell.str "200"])], 2⟩

/-- Every column holds no cells and the row count is zero: the shape of
any frame derived from a zero-row load. -/
def PNil (f : Frame) : Prop :=
  (∀ p ∈ f.cols, p.2 = ([] : List Cell)) ∧ f.nrows = 0

/-- Claim C1, counterexample: on a table whose every `DATE_OCC` value
fails to parse (and whose `Date_Rptd` rebinding also yields nothing),
the run completes and still writes all four temporal/categorical CSV
export files — the claim says no such exports are produced. -/
theorem c1_csvs_written_despite_no_valid_dates :
    (runOut c1table).map
        (fun o => (o.validDateCount, o.csvFilesWritten.length, o.csvFilesWritten.isEmpty))
      = some (0, 4, false) := by decide

/-- Claim C5, counterexample: two equal-count groups encountered in the
order `"B"`, `"A"` come out in ascending key order `A, B` (the groupby
stage pre-sorts the keys; at this size numpy's sort is its insertion
sort, so the model's order is the program's), not in first-encountered
order `B, A` as the claim states. -/
theorem c5_tie_not_first_encountered :
    topTable ["B", "A"] = [("A", 1), ("B", 1)] ∧
    topTable ["B", "A"] ≠ [("B", 1), ("A", 1)] := by decide

/-- Claim C2, counterexample: with columns `["beat_zone", "area_x"]`
and candidates `["area", "beat"]` the claim's candidate-priority
substring rule would resolve to `"area_x"`, but the source's substring
loop iterates columns in the outer loop and resolves to
`"beat_zone"`. -/
theorem c2_substring_phase_column_major :
    find_col ["beat_zone", "area_x"] ["area", "beat"] = some "beat_zone" ∧
    find_col ["beat_zone", "area_x"] ["area", "beat"] ≠ some "area_x" := by decide

/-- Claim C3, evaluation at the failing input: the primary policy
parses 1 of the 10 raw dates (10% < 20%, so the retry triggers), a
day-first re-parse of the *raw* column would parse all 10, yet the
pipeline's `DATE_OCC` still has only 1 parsed value afterwards — the
fallback re-parses the column that line 69 already overwrote, so it
can never improve and is never adopted. -/
theorem c3_dayfirst_fallback_dead_eval :
    countSome (c3rawDates.map parseCellPrimary) = 1 ∧
    countSome (c3rawDates.map parseCellDayfirst) = 10 ∧
    notnaCount (getColD (stageDates c3table) "DATE_OCC") = 1 := by decide

/-- Claim C4, counterexample: a zero-row load is not fatal — the run
completes (no raised condition), reaches the zero-valid-timestamp path
and still writes the four CSV export files. -/
theorem c4_empty_result_not_fatal :
    (runOut c4table).map
        (fun o => (o.csvFilesWritten.length, o.validDateCount, o.chartTopAreas, o.chartMonthly))
      = some (4, 0, false, false) := by decide

/-- Claim C8, evaluation at the failing input: a missing cell in the
resolved area column is stringified by `astype(str)` to `"nan"` before
`fillna("Unknown")` runs, so the canonical record carries `"nan"`, not
the `"Unknown"` sentinel. -/
theorem c8_null_area_becomes_nan_eval :
    aliasVal Cell.null = Cell.str "nan" ∧
    getColD (stageAlias c8frame) "AREA_NAME_alias" = [Cell.str "nan", Cell.str "Pacific"] ∧
    Cell.str "nan" ≠ Cell.str "Unknown" := by decide

/- ### Sorting lemmas for the aggregator -/

theorem insertLe_perm {α : Type} (le : α → α → Bool) (x : α) (l : List α) :
    List.Perm (insertLe le x l) (x :: l) := by
  induction l with
  | nil => exact List.Perm.refl _
  | cons y t ih =>
    unfold insertLe
    split
    · exact List.Perm.refl _
    · exact ((List.Perm.cons y ih).trans (List.Perm.swap x y t))

theorem sortLe_perm {α : Type} (le : α → α → Bool) (l : List α) :
    List.Perm (sortLe le l) l := by
  induction l with
  | nil => exact List.Perm.refl _
  | cons x t ih => exact (insertLe_perm le x (sortLe le t)).trans (List.Perm.cons x ih)

theorem mem_insertLe {α : Type} {le : α → α → Bool} {x a : α} {l : List α}
    (h : a ∈ insertLe le x l) : a = x ∨ a ∈ l := by
  have := (insertLe_perm le x l).subset h
  exact List.mem_cons.1 this

theorem insertLe_pairwise {α : Type} (le : α → α → Bool)
    (htot : ∀ a b, le a b = true ∨ le b a = true)
    (htr : ∀ a b c, le a b = true → le b c = true → le a c = true)
    (x : α) : ∀ l : List α, l.Pairwise (fun a b => le a b = true) →
    (insertLe le x l).Pairwise (fun a b => le a b = true) := by
  intro l
  induction l with
  | nil => intro _; simp [insertLe]
  | cons y t ih =>
    intro hl
    rw [List.pairwise_cons] at hl
    obtain ⟨hy, ht⟩ := hl
    unfold insertLe
    split
    next hxy =>
      rw [List.pairwise_cons]
      refine ⟨?_, List.pairwise_cons.2 ⟨hy, ht⟩⟩
      intro b hb
      rcases List.mem_cons.1 hb with rfl | hbt
      · exact hxy
      · exact htr x y b hxy (hy b hbt)
    next hxy =>
      rw [List.pairwise_cons]
      constructor
      · intro b hb
        rcases mem_insertLe hb with hbx | hbt
        · rcases htot x y with h1 | h1
          · exact absurd h1 hxy
          · rw [hbx]; exact h1
        · exact hy b hbt
      · exact ih ht

theorem sortLe_pairwise {α : Type} (le : α → α → Bool)
    (htot : ∀ a b, le a b = true ∨ le b a = true)
    (htr : ∀ a b c, le a b = true → le b c = true → le a c = true)
    (l : List α) : (sortLe le l).Pairwise (fun a b => le a b = true) := by
  induction l with
  | nil => simp [sortLe]
  | cons x t ih => exact insertLe_pairwise le htot htr x (sortLe le t) ih

theorem monthLeB_total : ∀ a b : Nat × Nat, monthLeB a b = true ∨ monthLeB b a = true := by
  intro a b
  simp only [monthLeB, decide_eq_true_eq]
  omega

theorem monthLeB_trans :
    ∀ a b c : Nat × Nat, monthLeB a b = true → monthLeB b c = true → monthLeB a c = true := by
  intro a b c
  simp only [monthLeB, decide_eq_true_eq]
  omega

theorem dayLeB_total : ∀ a b : SDate, dayLeB a b = true ∨ dayLeB b a = true := by
  intro a b
  simp only [dayLeB, decide_eq_true_eq]
  omega

theorem dayLeB_trans :
    ∀ a b c : SDate, dayLeB a b = true → dayLeB b c = true → dayLeB a c = true := by
  intro a b c
  simp only [dayLeB, decide_eq_true_eq]
  omega

/-- Strictness on top of sortedness for the deduplicated temporal keys. -/
theorem groupbySize_key_strict {K : Type} [DecidableEq K] (le lt : K → K → Bool)
    (htot : ∀ a b, le a b = true ∨ le b a = true)
    (htr : ∀ a b c, le a b = true → le b c = true → le a c = true)
    (hstrict : ∀ a b : K, le a b = true → a ≠ b → lt a b = true)
    (keys : List K) :
    (groupbySize le keys).Pairwise (fun p q => lt p.1 q.1 = true) := by
  unfold groupbySize
  rw [List.pairwise_map]
  have hsorted := sortLe_pairwise le htot htr keys.dedup
  have hnodup : (sortLe le keys.dedup).Nodup :=
    ((sortLe_perm le keys.dedup).nodup_iff).2 (List.nodup_dedup keys)
  exact (hsorted.and hnodup).imp (fun {a b} h => hstrict a b h.1 h.2)

theorem monthLeB_strict :
    ∀ a b : Nat × Nat, monthLeB a b = true → a ≠ b → monthLtB a b = true := by
  intro a b hle hne
  obtain ⟨a1, a2⟩ := a
  obtain ⟨b1, b2⟩ := b
  simp only [monthLeB, decide_eq_true_eq] at hle
  simp only [ne_eq, Prod.mk.injEq, not_and] at hne
  simp only [monthLtB, decide_eq_true_eq]
  by_cases h1 : a1 = b1
  · have := hne h1
    omega
  · omega

theorem dayLeB_strict :
    ∀ a b : SDate, dayLeB a b = true → a ≠ b → dayLtB a b = true := by
  intro a b hle hne
  obtain ⟨ay, am, ad⟩ := a
  obtain ⟨by_, bm, bd⟩ := b
  simp only [dayLeB, decide_eq_true_eq] at hle
  simp only [ne_eq, SDate.mk.injEq, not_and] at hne
  simp only [dayLtB, decide_eq_true_eq]
  by_cases h1 : ay = by_
  · by_cases h2 : am = bm
    · have := hne h1 h2
      omega
    · omega
  · omega

theorem natLeB_total : ∀ a b : Nat, natLeB a b = true ∨ natLeB b a = true := by
  intro a b
  simp only [natLeB, decide_eq_true_eq]
  omega

theorem natLeB_trans :
    ∀ a b c : Nat, natLeB a b = true → natLeB b c = true → natLeB a c = true := by
  intro a b c
  simp only [natLeB, decide_eq_true_eq]
  omega

theorem natLeB_strict : ∀ a b : Nat, natLeB a b = true → a ≠ b → natLtB a b = true := by
  intro a b
  simp only [natLeB, natLtB, decide_eq_true_eq, ne_eq]
  omega

theorem cntGe_total {K : Type} : ∀ a b : K × Nat, cntGe a b = true ∨ cntGe b a = true := by
  intro a b
  simp only [cntGe, decide_eq_true_eq]
  omega

theorem cntGe_trans {K : Type} :
    ∀ a b c : K × Nat, cntGe a b = true → cntGe b c = true → cntGe a c = true := by
  intro a b c
  simp only [cntGe, decide_eq_true_eq]
  omega

/-- The count column of a categorical aggregate is weakly descending —
this holds for any correct descending sort by count, stable or not. -/
theorem topTable_desc (keys : List String) :
    (topTable keys).Pairwise (fun p q => q.2 ≤ p.2) := by
  unfold topTable
  refine (sortLe_pairwise cntGe cntGe_total cntGe_trans _).imp (fun {a b} h => ?_)
  simpa [cntGe] using h

/-- Claim C5 (amended): every categorical aggregate table is a
permutation of its group/count table, ordered weakly descending by
count; ties between equal counts are NOT broken by the
first-encountered group — the groupby stage pre-sorts the keys
alphabetically, and the default unstable count sort (numpy introsort)
fixes no tie order in general (below numpy's small-array threshold it
is insertion sort and ties come out in ascending key order, as the
counterexample shows at two groups).  Every temporal aggregate the
script builds (daily, weekly, monthly — no yearly aggregate exists) is
sorted strictly ascending by its bucket key; the weekly part holds for
any week-numbering function `wk` standing for the external
`isocalendar().week`. -/
theorem c5_ordering_amended :
    (∀ f : Frame, (topAreasOf f).Pairwise (fun p q => q.2 ≤ p.2)) ∧
    (∀ f : Frame, (topCrimesOf f).Pairwise (fun p q => q.2 ≤ p.2)) ∧
    (∀ keys : List String, List.Perm (topTable keys) (groupbySize strLeB keys)) ∧
    (∀ f : Frame, (monthlyOf f).Pairwise (fun p q => monthLtB p.1 q.1 = true)) ∧
    (∀ (wk : SDate → Nat) (f : Frame),
      (weeklyOf wk f).Pairwise (fun p q => natLtB p.1 q.1 = true)) ∧
    (∀ f : Frame, (dailyOf f).Pairwise (fun p q => dayLtB p.1 q.1 = true)) := by
  refine ⟨fun f => topTable_desc _, fun f => topTable_desc _,
    fun keys => sortLe_perm cntGe _, ?_, ?_, ?_⟩
  · intro f
    unfold monthlyOf
    split
    · exact groupbySize_key_strict monthLeB monthLtB monthLeB_total monthLeB_trans
        monthLeB_strict _
    · exact List.Pairwise.nil
  · intro wk f
    unfold weeklyOf
    split
    · exact groupbySize_key_strict natLeB natLtB natLeB_total natLeB_trans natLeB_strict _
    · exact List.Pairwise.nil
  · intro f
    unfold dailyOf
    split
    · exact groupbySize_key_strict dayLeB dayLtB dayLeB_total dayLeB_trans dayLeB_strict _
    · exact List.Pairwise.nil

/- ### Resolver lemmas and claim C2 -/

theorem dictInsert_mem {d : List (String × String)} {k v : String} {p : String × String}
    (h : p ∈ dictInsert d k v) : p ∈ d ∨ p = (k, v) := by
  unfold dictInsert at h
  split at h
  · rcases List.mem_map.1 h with ⟨q, hq, heq⟩
    by_cases hk : q.1 == k
    · rw [if_pos hk] at heq
      exact Or.inr heq.symm
    · rw [if_neg hk] at heq
      exact Or.inl (heq ▸ hq)
  · rcases List.mem_append.1 h with h1 | h1
    · exact Or.inl h1
    · exact Or.inr (by simpa using h1)

theorem colsLower_aux (cs : List String) :
    ∀ (d : List (String × String)) (p : String × String),
    p ∈ cs.foldl (fun d c => dictInsert d (lowerStr c) c) d → p ∈ d ∨ p.2 ∈ cs := by
  induction cs with
  | nil => intro d p h; exact Or.inl h
  | cons c t ih =>
    intro d p h
    rcases ih (dictInsert d (lowerStr c) c) p h with h1 | h1
    · rcases dictInsert_mem h1 with h2 | h2
      · exact Or.inl h2
      · right
        rw [h2]
        exact List.mem_cons_self _ _
    · exact Or.inr (List.mem_cons_of_mem _ h1)

theorem colsLower_val_mem {cols : List String} {p : String × String}
    (h : p ∈ colsLower cols) : p.2 ∈ cols := by
  rcases colsLower_aux cols [] p h with h1 | h1
  · exact absurd h1 (List.not_mem_nil _)
  · exact h1

theorem dictGet_val_mem {cols : List String} {k c : String}
    (h : dictGet (colsLower cols) k = some c) : c ∈ cols := by
  unfold dictGet at h
  cases hf : (colsLower cols).find? (fun p => p.1 == k) with
  | none => rw [hf] at h; exact absurd h (by simp)
  | some pr =>
    rw [hf] at h
    have h2 : pr.2 = c := by simpa using h
    rw [← h2]
    exact colsLower_val_mem (List.mem_of_find?_eq_some hf)

/-- Claim C2 (amended): exact matching is candidate-priority as
claimed, and the worked example resolves `["Area", "beat_number"]` to
`"Area"` (via the exact phase); but the substring phase iterates the
table's columns in the outer loop, so the first *column* containing any
candidate wins — shown by the second evaluation.  Any resolved name is
one of the table's columns. -/
theorem c2_resolver_amended :
    find_col ["Area", "beat_number"] ["area_name", "area", "beat"] = some "Area" ∧
    find_col ["beat_zone", "area_x"] ["area", "beat"] = some "beat_zone" ∧
    (∀ cols possible : List String,
      (find_col cols possible).elim True (fun c => c ∈ cols)) := by
  refine ⟨by decide, by decide, ?_⟩
  intro cols possible
  unfold find_col
  simp only []
  cases h1 : possible.find? (fun name => (dictGet (colsLower cols) (lowerStr name)).isSome) with
  | some name =>
    simp only [h1]
    cases h2 : dictGet (colsLower cols) (lowerStr name) with
    | none => simp [h2]
    | some c =>
      simp only [h2, Option.elim]
      exact dictGet_val_mem h2
  | none =>
    simp only [h1]
    cases h2 : (colsLower cols).find?
        (fun p => possible.any (fun name => hasSubstr (lowerStr name).data p.1.data)) with
    | none => simp [h2]
    | some pr =>
      simp only [h2, Option.map_some, Option.elim]
      exact colsLower_val_mem (List.mem_of_find?_eq_some h2)

/- ### Helper lemmas for C6 and C7 -/

theorem hhmm?_range (l : List Char) (p : Nat × Nat) (h : hhmm? l = some p) :
    p.1 ≤ 23 ∧ p.2 ≤ 59 := by
  unfold hhmm? at h
  split at h
  · simp only [] at h
    split at h
    next hrange =>
      cases h
      exact hrange
    next => exact absurd h (by simp)
  · exact absurd h (by simp)

theorem takeDigits_append : ∀ l : List Char, (takeDigits l).1 ++ (takeDigits l).2 = l := by
  intro l
  induction l with
  | nil => rfl
  | cons c t ih =>
    unfold takeDigits
    split
    · simpa using ih
    · rfl

theorem mem_of_stripSign {c : Char} {l : List Char} (h : c ∈ stripSign l) : c ∈ l := by
  unfold stripSign at h
  split at h
  · exact List.mem_cons_of_mem _ h
  · exact List.mem_cons_of_mem _ h
  · exact h

theorem matchNum_some_dot {l : List Char} {r : Dec × List Char} (h : matchNum l = some r) :
    ('.' : Char) ∈ l := by
  unfold matchNum at h
  simp only [] at h
  split at h
  · split at h
    next l3 heq =>
      have hdot : ('.' : Char) ∈ (takeDigits (stripSign l)).2 := by
        rw [heq]; exact List.mem_cons_self _ _
      have hmem : ('.' : Char) ∈ stripSign l := by
        rw [← takeDigits_append (stripSign l)]
        exact List.mem_append_right _ hdot
      exact mem_of_stripSign hmem
    next => exact absurd h (by simp)
  · exact absurd h (by simp)

theorem matchPairAt_some_dot {l : List Char} {p : Dec × Dec} (h : matchPairAt l = some p) :
    ('.' : Char) ∈ l := by
  unfold matchPairAt at h
  split at h
  next => exact absurd h (by simp)
  next q1 r1 heq => exact matchNum_some_dot heq

theorem searchPair_none_of_no_dot : ∀ l : List Char, ('.' : Char) ∉ l → searchPair l = none := by
  intro l
  induction l with
  | nil => intro _; rfl
  | cons c t ih =>
    intro h
    unfold searchPair
    split
    next p heq => exact absurd (matchPairAt_some_dot heq) h
    next => exact ih (fun hm => h (List.mem_cons_of_mem _ hm))

/-- Claim C6: time-of-day parsing strips non-digits, left-pads with
zeros to 4 digits and reads HHMM; `"635"` is 6:35, `"1"` is 0:01;
empty, null and out-of-range input give `none`; any successfully parsed
value is a valid hour/minute pair.  The parse is a total Lean function,
so it never raises. -/
theorem c6_time_of_day_parsing :
    fix_time "635" = some (6, 35) ∧
    fix_time "1" = some (0, 1) ∧
    fix_time "" = none ∧
    fixTimeCell Cell.null = none ∧
    fix_time "2460" = none ∧
    (∀ s : String, (fix_time s).elim True (fun p => p.1 ≤ 23 ∧ p.2 ≤ 59)) := by
  refine ⟨by decide, by decide, by decide, by decide, by decide, ?_⟩
  intro s
  cases h : fix_time s with
  | none => trivial
  | some p =>
    unfold fix_time at h
    simp only [] at h
    split at h
    · exact absurd h (by simp)
    · exact hhmm?_range _ _ h

/-- Claim C7: coordinate extraction returns the first adjacent pair of
signed decimal numbers in encounter order, performs no geographic range
validation, and yields `none` (never an error) for null input, a lone
number, or text with no decimal-degree pair — in particular for any
text without a decimal point, which covers plain street addresses. -/
theorem c7_extract_coord :
    (extractCoordStr "(34.0522, -118.2437)" = some (⟨340522, 4⟩, ⟨-1182437, 4⟩) ∧
      Dec.toRat ⟨340522, 4⟩ = (34.0522 : ℚ) ∧ Dec.toRat ⟨-1182437, 4⟩ = (-118.2437 : ℚ)) ∧
    (extractCoordStr "34.05 -118.24" = some (⟨3405, 2⟩, ⟨-11824, 2⟩) ∧
      Dec.toRat ⟨3405, 2⟩ = (34.05 : ℚ) ∧ Dec.toRat ⟨-11824, 2⟩ = (-118.24 : ℚ)) ∧
    extractCoordStr "1234 Main St, Los Angeles" = none ∧
    extractCoordCell Cell.null = none ∧
    (extractCoordStr "500.0, 500.0" = some (⟨5000, 1⟩, ⟨5000, 1⟩) ∧
      Dec.toRat ⟨5000, 1⟩ = (500 : ℚ)) ∧
    (extractCoordStr "1.5 2.5 3.5" = some (⟨15, 1⟩, ⟨25, 1⟩) ∧
      Dec.toRat ⟨15, 1⟩ = (1.5 : ℚ) ∧ Dec.toRat ⟨25, 1⟩ = (2.5 : ℚ)) ∧
    extractCoordStr "34.05" = none ∧
    (∀ s : String, ('.' : Char) ∉ s.data → extractCoordStr s = none) := by
  refine ⟨⟨by decide, by norm_num [Dec.toRat], by norm_num [Dec.toRat]⟩,
    ⟨by decide, by norm_num [Dec.toRat], by norm_num [Dec.toRat]⟩,
    by decide, by decide,
    ⟨by decide, by norm_num [Dec.toRat]⟩,
    ⟨by decide, by norm_num [Dec.toRat], by norm_num [Dec.toRat]⟩,
    by decide, ?_⟩
  intro s h
  exact searchPair_none_of_no_dot s.data h

/-- Witness for the conditional part of `c7_extract_coord`, at the
dot-free address `"Main St"`. -/
theorem c7_extract_coord_w : extractCoordStr "Main St" = none :=
  c7_extract_coord.2.2.2.2.2.2.2 "Main St" (by decide)

/-- Claim C9, counterexample: `DATE_OCC` is entirely unparseable, the
rebinding resolves the first candidate `date_rptd` (the `Date_Rptd`
column always exists after line 68) whose parse yields nothing, and the
zero-valid-timestamp condition is reached — even though the later
candidate column `date` parses completely.  The claim says the
condition is only reached when no candidate yields any parse. -/
theorem c9_later_candidate_not_consulted :
    (runOut c9table).map Output.validDateCount = some 0 ∧
    countSome (c9dateCol.map parseCellPrimary) = 2 ∧
    find_col ["DATE_OCC", "Date_Rptd", "date", "TIME_OCC", "TIME_OCC_parsed", "Lat", "Lon"]
        dateCands = some "Date_Rptd" := by decide

/- ### Pipeline lemmas: the zero-valid-timestamp path -/

theorem mask_all_false {f : Frame} (h : notnaCount (getColD f "DATE_OCC") = 0) :
    ∀ b ∈ (getColD f "DATE_OCC").map cellNotNull, b = false := by
  intro b hb
  rcases List.mem_map.1 hb with ⟨c, hc, rfl⟩
  unfold notnaCount at h
  have hnc := (List.countP_eq_zero).1 h c hc
  cases hcn : cellNotNull c
  · rfl
  · exact absurd hcn hnc

theorem countTrue_all_false {mask : List Bool} (h : ∀ b ∈ mask, b = false) :
    countTrue mask = 0 := by
  unfold countTrue
  rw [List.countP_eq_zero]
  intro b hb
  rw [h b hb]
  simp

theorem maskFilter_all_false {mask : List Bool} (h : ∀ b ∈ mask, b = false) :
    ∀ col, maskFilter mask col = [] := by
  induction mask with
  | nil => intro col; cases col <;> rfl
  | cons b t ih =>
    intro col
    have hb := h b (List.mem_cons_self _ _)
    subst hb
    cases col with
    | nil => rfl
    | cons c cs => exact ih (fun x hx => h x (List.mem_cons_of_mem _ hx)) cs

theorem dfTime_nrows_zero {f : Frame} (h : notnaCount (getColD f "DATE_OCC") = 0) :
    (dfTimeOf f).nrows = 0 :=
  countTrue_all_false (mask_all_false h)

theorem getColD_frameFilter_all_false {f : Frame} {mask : List Bool}
    (hm : ∀ b ∈ mask, b = false) (name : String) :
    getColD (frameFilter f mask) name = [] := by
  unfold frameFilter getColD getCol?
  cases hf : (f.cols.map (fun p => (p.1, maskFilter mask p.2))).find?
      (fun p => p.1 == name) with
  | none =>
    simp only [hf, Option.map_none', Option.getD_none]
    rw [countTrue_all_false hm]
    rfl
  | some pr =>
    rcases List.mem_map.1 (List.mem_of_find?_eq_some hf) with ⟨q, _, hq⟩
    simp only [hf, Option.map_some', Option.getD_some]
    rw [← hq]
    exact maskFilter_all_false hm q.2

theorem dfTime_getColD_nil {f : Frame} (h : notnaCount (getColD f "DATE_OCC") = 0)
    (name : String) : getColD (dfTimeOf f) name = [] := by
  unfold dfTimeOf
  exact getColD_frameFilter_all_false (mask_all_false h) name

theorem datesOf_nil {f : Frame} (h : notnaCount (getColD f "DATE_OCC") = 0) :
    datesOf f = [] := by
  unfold datesOf
  rw [dfTime_getColD_nil h]
  rfl

theorem topAreasOf_nil {f : Frame} (h : notnaCount (getColD f "DATE_OCC") = 0) :
    topAreasOf f = [] := by
  unfold topAreasOf
  rw [dfTime_getColD_nil h]
  rfl

theorem topCrimesOf_nil {f : Frame} (h : notnaCount (getColD f "DATE_OCC") = 0) :
    topCrimesOf f = [] := by
  unfold topCrimesOf
  rw [dfTime_getColD_nil h]
  rfl

theorem monthlyOf_nil {f : Frame} (h : notnaCount (getColD f "DATE_OCC") = 0) :
    monthlyOf f = [] := by
  unfold monthlyOf
  rw [dfTime_nrows_zero h]
  simp

theorem dailyOf_nil {f : Frame} (h : notnaCount (getColD f "DATE_OCC") = 0) :
    dailyOf f = [] := by
  unfold dailyOf
  rw [dfTime_nrows_zero h]
  simp

/-- Everything `finalize` publishes on the zero-valid-timestamp path. -/
theorem finalize_of_no_valid {f : Frame} (h : notnaCount (getColD f "DATE_OCC") = 0) :
    finalize f =
      { validDateCount := 0, diagNoValidDates := true, chartTopAreas := false,
        chartMonthly := false, aggTopAreas := [], aggTopCrimes := [], aggMonthly := [],
        aggDaily := [], csvTopAreas := [], csvTopCrimes := [], csvMonthly := [],
        csvDaily := [], csvFilesWritten := csvFileNames } := by
  unfold finalize
  rw [h, topAreasOf_nil h, topCrimesOf_nil h, monthlyOf_nil h, dailyOf_nil h]
  rfl

theorem except_ok_toOption {ε α : Type} (a : α) :
    (Except.ok a : Except ε α).toOption = some a := rfl

theorem option_elim_some {α β : Type} (a : α) (b : β) (f : α → β) :
    (some a).elim b f = f a := rfl

theorem finalize_validDateCount (f : Frame) :
    (finalize f).validDateCount = notnaCount (getColD f "DATE_OCC") := rfl

theorem finalize_csvTopAreas (f : Frame) :
    (finalize f).csvTopAreas = (topAreasOf f).take 100 := rfl

theorem finalize_aggTopAreas (f : Frame) : (finalize f).aggTopAreas = topAreasOf f := rfl

theorem finalize_csvTopCrimes (f : Frame) :
    (finalize f).csvTopCrimes = (topCrimesOf f).take 100 := rfl

theorem finalize_aggTopCrimes (f : Frame) : (finalize f).aggTopCrimes = topCrimesOf f := rfl

theorem finalize_csvMonthly (f : Frame) : (finalize f).csvMonthly = monthlyOf f := rfl

theorem finalize_aggMonthly (f : Frame) : (finalize f).aggMonthly = monthlyOf f := rfl

theorem finalize_csvDaily (f : Frame) : (finalize f).csvDaily = dailyOf f := rfl

theorem finalize_aggDaily (f : Frame) : (finalize f).aggDaily = dailyOf f := rfl

/-- Claim C1 (amended): whenever the valid-timestamp count at the
line-177 guard is zero (equivalently: every candidate occurrence-date
column, after the rebinding, parsed to nothing), a run that reaches the
guard completes without raising, emits the no-valid-dates diagnostic,
skips the temporal aggregates and both charts, and still writes the
four CSV export files — each with zero data rows — rather than
producing no CSV exports. -/
theorem c1_zero_valid_dates_guard_amended (t : Frame) (h : vdcOf t = 0) :
    (runOut t).elim True (fun o =>
      o.diagNoValidDates = true ∧ o.chartTopAreas = false ∧ o.chartMonthly = false ∧
      o.csvTopAreas = [] ∧ o.csvTopCrimes = [] ∧ o.csvMonthly = [] ∧ o.csvDaily = [] ∧
      o.csvFilesWritten = csvFileNames) := by
  unfold vdcOf runOut runPipeline at h
  unfold runOut runPipeline
  simp only [] at h ⊢
  cases hC : hasCol (stageDates t) "TIME_OCC" with
  | false => simp only [hC]; exact trivial
  | true =>
    simp only [hC, except_ok_toOption, Option.map_some', Option.getD_some] at h
    rw [finalize_validDateCount] at h
    simp only [hC, except_ok_toOption, option_elim_some]
    rw [finalize_of_no_valid h]
    exact ⟨rfl, rfl, rfl, rfl, rfl, rfl, rfl, rfl⟩

/-- Witness for `c1_zero_valid_dates_guard_amended` at the concrete
all-unparseable table `c1table`. -/
theorem c1_zero_valid_dates_guard_amended_w :
    (runOut c1table).elim True (fun o =>
      o.diagNoValidDates = true ∧ o.chartTopAreas = false ∧ o.chartMonthly = false ∧
      o.csvTopAreas = [] ∧ o.csvTopCrimes = [] ∧ o.csvMonthly = [] ∧ o.csvDaily = [] ∧
      o.csvFilesWritten = csvFileNames) :=
  c1_zero_valid_dates_guard_amended c1table (by decide)

/- ### Pipeline lemmas: all-empty frames (zero-row loads) -/

theorem getColD_PNil {f : Frame} (h : PNil f) (name : String) : getColD f name = [] := by
  unfold getColD getCol?
  cases hf : f.cols.find? (fun p => p.1 == name) with
  | none =>
    simp only [hf, Option.map_none', Option.getD_none, h.2]
    rfl
  | some pr =>
    simp only [hf, Option.map_some', Option.getD_some]
    exact h.1 pr (List.mem_of_find?_eq_some hf)

theorem setCol_PNil {f : Frame} (h : PNil f) (name : String) {col : List Cell}
    (hcol : col = []) : PNil (setCol f name col) := by
  constructor
  · intro p hp
    unfold setCol at hp
    split at hp
    · rcases List.mem_map.1 hp with ⟨q, hq, heq⟩
      by_cases hk : q.1 == name
      · rw [if_pos hk] at heq
        rw [← heq]
        exact hcol
      · rw [if_neg hk] at heq
        exact heq ▸ h.1 q hq
    · rcases List.mem_append.1 hp with h1 | h1
      · exact h.1 p h1
      · have h2 : p = (name, col) := by simpa using h1
        rw [h2]
        exact hcol
  · unfold setCol
    split
    · exact h.2
    · exact h.2

theorem parseColInto_PNil {f : Frame} (h : PNil f) (dst src : String)
    (g : Cell → Option SDate) : PNil (parseColInto f dst src g) :=
  setCol_PNil h dst (by rw [getColD_PNil h]; rfl)

theorem aliasCol_PNil {f : Frame} (h : PNil f) (name : String) (r : Option String) :
    PNil (aliasCol f name r) := by
  cases r with
  | some c => exact setCol_PNil h name (by rw [getColD_PNil h]; rfl)
  | none => exact setCol_PNil h name (by rw [h.2]; rfl)

theorem stageDates_PNil {t : Frame} (h : PNil t) : PNil (stageDates t) := by
  unfold stageDates
  simp only []
  have hP0 : PNil (⟨t.cols.map (fun p => (trimStr p.1, p.2)), t.nrows⟩ : Frame) := by
    constructor
    · intro p hp
      rcases List.mem_map.1 hp with ⟨q, hq, heq⟩
      rw [← heq]
      exact h.1 q hq
    · exact h.2
  have hP2 := parseColInto_PNil (parseColInto_PNil hP0 "Date_Rptd" "Date_Rptd" parseCellPrimary)
    "DATE_OCC" "DATE_OCC" parseCellPrimary
  split
  · split
    · exact parseColInto_PNil hP2 "DATE_OCC" "DATE_OCC" parseCellDayfirst
    · exact hP2
  · exact hP2

theorem stageTimeGeo_PNil {f : Frame} (h : PNil f) : PNil (stageTimeGeo f) := by
  unfold stageTimeGeo
  simp only []
  rw [getColD_PNil h "TIME_OCC"]
  simp only [List.map_nil]
  have h1 : PNil (setCol f "TIME_OCC_parsed" []) := setCol_PNil h _ rfl
  rw [getColD_PNil h1 "LOCATION"]
  simp only [List.map_nil]
  exact setCol_PNil (setCol_PNil h1 "Lat" rfl) "Lon" rfl

theorem stageAlias_PNil {f : Frame} (h : PNil f) : PNil (stageAlias f) := by
  unfold stageAlias
  simp only []
  have h2 := aliasCol_PNil
    (aliasCol_PNil h "AREA_NAME_alias" (find_col (f.cols.map (fun p => p.1)) areaCands))
    "Crm_Cd_Desc_alias" (find_col (f.cols.map (fun p => p.1)) crimeCands)
  split
  · split
    · exact setCol_PNil h2 "DATE_OCC" (by rw [getColD_PNil h2]; rfl)
    · exact h2
  · exact h2

/-- Claim C4 (amended): a zero-row load is not fatal.  Provided the
empty result still carries its schema (in particular a `TIME_OCC`
column, without which line 104 raises), the run continues past the
load, follows the zero-valid-timestamp path, completes without raising,
skips both charts, and writes the four CSV files with zero data rows —
no abort, no absent output files. -/
theorem c4_empty_result_amended (t : Frame)
    (h0 : ∀ p ∈ t.cols, p.2 = ([] : List Cell)) (h1 : t.nrows = 0)
    (hT : hasCol (stageDates t) "TIME_OCC" = true) :
    (runOut t).elim False (fun o =>
      o.csvFilesWritten.length = 4 ∧ o.csvTopAreas = [] ∧ o.csvTopCrimes = [] ∧
      o.csvMonthly = [] ∧ o.csvDaily = [] ∧ o.chartTopAreas = false ∧
      o.chartMonthly = false ∧ o.diagNoValidDates = true ∧ o.validDateCount = 0) := by
  have hPg : PNil (stageAlias (stageTimeGeo (stageDates t))) :=
    stageAlias_PNil (stageTimeGeo_PNil (stageDates_PNil ⟨h0, h1⟩))
  have hv : notnaCount
      (getColD (stageAlias (stageTimeGeo (stageDates t))) "DATE_OCC") = 0 := by
    rw [getColD_PNil hPg]
    rfl
  unfold runOut runPipeline
  simp only []
  simp only [hT, except_ok_toOption, option_elim_some]
  rw [finalize_of_no_valid hv]
  exact ⟨rfl, rfl, rfl, rfl, rfl, rfl, rfl, rfl, rfl⟩

/-- Witness for `c4_empty_result_amended` at the concrete zero-row
table `c4table`. -/
theorem c4_empty_result_amended_w :
    (runOut c4table).elim False (fun o =>
      o.csvFilesWritten.length = 4 ∧ o.csvTopAreas = [] ∧ o.csvTopCrimes = [] ∧
      o.csvMonthly = [] ∧ o.csvDaily = [] ∧ o.chartTopAreas = false ∧
      o.chartMonthly = false ∧ o.diagNoValidDates = true ∧ o.validDateCount = 0) :=
  c4_empty_result_amended c4table (by decide) (by decide) (by decide)

/-- Claim C10: the categorical CSV exports carry at most the first 100
rows of their (sorted) aggregate tables — exactly `head(100)` — while
the temporal CSV exports always carry the whole aggregate, bucket for
bucket. -/
theorem c10_csv_truncation (t : Frame) :
    (runOut t).elim True (fun o =>
      o.csvTopAreas = o.aggTopAreas.take 100 ∧ o.csvTopAreas.length ≤ 100 ∧
      o.csvTopCrimes = o.aggTopCrimes.take 100 ∧ o.csvTopCrimes.length ≤ 100 ∧
      o.csvMonthly = o.aggMonthly ∧ o.csvDaily = o.aggDaily) := by
  unfold runOut runPipeline
  simp only []
  cases hC : hasCol (stageDates t) "TIME_OCC" with
  | false => simp only [hC]; exact trivial
  | true =>
    simp only [hC, except_ok_toOption, option_elim_some]
    simp only [finalize_csvTopAreas, finalize_aggTopAreas, finalize_csvTopCrimes,
      finalize_aggTopCrimes, finalize_csvMonthly, finalize_aggMonthly, finalize_csvDaily,
      finalize_aggDaily]
    exact ⟨trivial, List.length_take_le _ _, trivial, List.length_take_le _ _, trivial, trivial⟩

/-- Claim C9 (amended): when the parsed `DATE_OCC` column is absent or
all-NaT, the pipeline rebinds the occurrence-timestamp role to the
*first name-resolvable* candidate — `date_rptd` resolves first whenever
a `Date_Rptd` column exists, which step 4 guarantees — and parses only
that column.  The zero-valid-timestamp condition is reached whenever
that single chosen column yields no parse; later candidates that would
parse (like the `date` column of `c9table`) are never consulted. -/
theorem c9_rebind_amended :
    (∀ (cols rest : List String) (c : String),
        dictGet (colsLower cols) (lowerStr "date_rptd") = some c →
        find_col cols ("date_rptd" :: rest) = some c) ∧
    (runOut c9table).map Output.validDateCount = some 0 ∧
    countSome (c9dateCol.map parseCellPrimary) = 2 := by
  refine ⟨?_, by decide, by decide⟩
  intro cols rest c h
  unfold find_col
  simp only []
  rw [@List.find?_cons_of_pos String
    (fun name => (dictGet (colsLower cols) (lowerStr name)).isSome) "date_rptd" rest
    (by show (dictGet (colsLower cols) (lowerStr "date_rptd")).isSome = true
        rw [h]
        rfl)]
  exact h

/-- Witness for the conditional part of `c9_rebind_amended`: with a
`Date_Rptd` column present, the resolver returns it for the
`date_rptd`-first candidate list. -/
theorem c9_rebind_amended_w :
    find_col ["Date_Rptd", "date"] ["date_rptd", "date", "date_reported", "date_occ"]
      = some "Date_Rptd" :=
  c9_rebind_amended.1 ["Date_Rptd", "date"] ["date", "date_reported", "date_occ"]
    "Date_Rptd" (by decide)
